import Mathlib

/-!
Shallow embedding of the libtock-rs userland IPC runtime:
`src/platform/src/async_helpers.rs` (Yield, Executor, Share, SubscribeUpcall)
and `src/apis/kernel/ipc/src/lib.rs` (the Ipc service protocol).

Syscalls are modelled as an event trace: each embedded operation returns its
result together with the list of kernel-boundary events it issues, and the
kernel's raw return registers are passed in as explicit parameters (one
`(r0, r1)` pair per issued syscall), so theorems quantify over every possible
kernel response.
-/

namespace Tock

/-- An event at the process→kernel boundary, as recorded by the embedding.
`syscall4` is a raw 4-register syscall of a given class (this is what
`S::syscall4::<CLASS>` issues); `command` and `allowRo` are the external
platform wrappers `S::command` / `S::allow_ro`; `yieldNoWait` is the
non-blocking yield `S::yield_no_wait`; `polled i` is pure instrumentation
recording that the Executor polled task `i` (it is not a syscall). -/
inductive Ev where
  | polled (i : Nat)
  | yieldNoWait
  | syscall4 (cls r0 r1 r2 r3 : Nat)
  | command (driver cmd a0 a1 : Nat)
  | allowRo (driver slot ptr len : Nat)
deriving DecidableEq, Repr

/-!
The `ReturnVariant` wire constants and syscall class identifiers live in the
external platform crate, not in the two source files; the spec describes them
("decoded from register 0 of any syscall result", "stable wire constants",
"a 4-register syscall invocation primitive parameterized by an operation
class"), so they are modelled from the spec with the TRD 104 wire numbers.
-/
namespace return_variant

/-- Modelled from the spec: the `Failure` (no value) failure shape, wire 0. -/
def FAILURE : Nat := 0

/-- Modelled from the spec: the `Failure with u32` failure shape, wire 1. -/
def FAILURE_U32 : Nat := 1

/-- Modelled from the spec: the documented "2-register" failure shape
(`Failure with 2 u32`), wire 2. -/
def FAILURE_2_U32 : Nat := 2

/-- Modelled from the spec: the `Failure with u64` failure shape, wire 3. -/
def FAILURE_U64 : Nat := 3

/-- Modelled from the spec: the `Success` (no value) success shape, wire 128. -/
def SUCCESS : Nat := 128

/-- Modelled from the spec: the `Success with u32` success shape, wire 129. -/
def SUCCESS_U32 : Nat := 129

/-- Modelled from the spec: the `Success with 2 u32` success shape, wire 130. -/
def SUCCESS_2_U32 : Nat := 130

end return_variant

namespace syscall_class

/-- Modelled from the spec: the subscribe syscall class, wire 1. -/
def SUBSCRIBE : Nat := 1

/-- Modelled from the spec: the command syscall class, wire 2. -/
def COMMAND : Nat := 2

/-- Modelled from the spec: the allow-read-write syscall class, wire 3. -/
def ALLOW_RW : Nat := 3

/-- Modelled from the spec: the allow-read-only syscall class, wire 4. -/
def ALLOW_RO : Nat := 4

end syscall_class

/-- Modelled from the spec: `ErrorCode` is a "small closed enumeration ...
values are defined by the syscall ABI specification and considered stable
wire constants", and the source transmutes it directly from the kernel's
`r1` register; we model it as a wrapper around that wire value. -/
structure ErrorCode where
  code : Nat
deriving DecidableEq, Repr

/-- Modelled from the spec: the TRD 104 wire value of `ErrorCode::SIZE`. -/
def ErrorCode.SIZE : ErrorCode := ⟨7⟩

/-- Modelled from the spec: the TRD 104 wire value of `ErrorCode::NODEVICE`. -/
def ErrorCode.NODEVICE : ErrorCode := ⟨11⟩

/-! ## Yield (async_helpers.rs lines 14-36) -/

/-- The result of polling a future: `Poll::Ready(())` or `Poll::Pending`. -/
inductive PollR where
  | Ready
  | Pending
deriving DecidableEq, Repr

/-- `struct Yield { ready: bool }` -/
structure Yield where
  ready : Bool
deriving DecidableEq, Repr

/-- `Yield::now()` -/
def Yield.now : Yield := ⟨false⟩

/-- `<Yield as Future>::poll`: if `ready` is false, set it and return
`Pending`; otherwise return `Ready`. The source body contains no syscall
invocation, so the event trace of the embedding is `[]`. -/
def Yield.poll : Yield → PollR × Yield × List Ev
  | ⟨false⟩ => (PollR.Pending, ⟨true⟩, [])
  | ⟨true⟩ => (PollR.Ready, ⟨true⟩, [])

/-! ## Executor (async_helpers.rs lines 42-79)

The executor state is the array `task` zipped with the `done` flags: a task
at index `i` is the pair `(t, d)` with `d = done[i]`. Polling a task is an
arbitrary function `pollT : τ → PollR × τ × List Ev` (the task's new state and
any events its poll issues), so the executor is embedded generically in the
task type, exactly as the Rust code is generic in `dyn Future`. -/

/-- One full sweep of the `for i in 0..TASKS` loop body of `Executor::run`,
starting at index `i`: a task with `done[i]` set contributes 1 to `all_done`
and is not polled; otherwise it is polled once, and on `Ready` its done flag
is set and it contributes 1. Returns the new task/done list, the resulting
`all_done` count, and the events issued. -/
def sweepA {τ : Type} (pollT : τ → PollR × τ × List Ev) (i : Nat) :
    List (τ × Bool) → List (τ × Bool) × Nat × List Ev
  | [] => ([], 0, [])
  | (t, d) :: rest =>
    if d then
      let r := sweepA pollT (i + 1) rest
      ((t, d) :: r.1, r.2.1 + 1, r.2.2)
    else
      let p := pollT t
      let r := sweepA pollT (i + 1) rest
      match p.1 with
      | PollR.Ready => ((p.2.1, true) :: r.1, r.2.1 + 1, (Ev.polled i :: p.2.2) ++ r.2.2)
      | PollR.Pending => ((p.2.1, false) :: r.1, r.2.1, (Ev.polled i :: p.2.2) ++ r.2.2)

/-- The `while all_done != TASKS` loop of `Executor::run`, with `allDone` the
value of `all_done` entering the loop test (initially 0). Each iteration
sweeps all tasks once and then issues exactly one `S::yield_no_wait()`. The
Rust loop has no bound, so the embedding takes explicit fuel and returns
`none` when the fuel runs out before the loop exits. -/
def runLoop {τ : Type} (pollT : τ → PollR × τ × List Ev) :
    Nat → Nat → List (τ × Bool) → Option (List (τ × Bool) × List Ev)
  | fuel, allDone, ts =>
    if allDone = ts.length then some (ts, [])
    else
      match fuel with
      | 0 => none
      | fuel + 1 =>
        let r := sweepA pollT 0 ts
        match runLoop pollT fuel r.2.1 r.1 with
        | none => none
        | some (ts', tr') => some (ts', r.2.2 ++ Ev.yieldNoWait :: tr')

/-- The number of tasks whose `done` flag is set (the value `all_done` has
after a full sweep). -/
def countDone {τ : Type} : List (τ × Bool) → Nat
  | [] => 0
  | (_, d) :: rest => (if d then 1 else 0) + countDone rest

/-- The indices (counting from `i`) of the tasks whose `done` flag is not
set: exactly the tasks a sweep starting at index `i` polls. -/
def pendingIdx {τ : Type} (i : Nat) : List (τ × Bool) → List Nat
  | [] => []
  | (_, d) :: rest => if d then pendingIdx (i + 1) rest else i :: pendingIdx (i + 1) rest

/-- The indices recorded by `polled` instrumentation events in a trace, in
order. -/
def polledOf (tr : List Ev) : List Nat :=
  tr.filterMap (fun e => match e with | Ev.polled j => some j | _ => none)

/-- `Executor::new(task)`: all `done` flags start false. -/
def Executor.new {τ : Type} (tasks : List τ) : List (τ × Bool) :=
  tasks.map (fun t => (t, false))

/-- `Executor::run(&mut self, cx)`: `let mut all_done = 0;` then the while
loop. -/
def Executor.run {τ : Type} (pollT : τ → PollR × τ × List Ev) (fuel : Nat)
    (ts : List (τ × Bool)) : Option (List (τ × Bool) × List Ev) :=
  runLoop pollT fuel 0 ts

/-! ## Share (async_helpers.rs lines 83-141) -/

/-- `struct Share<S, SHARE_TYPE> { driver_num, buffer_num }`; the const
generic `SHARE_TYPE` (the allow syscall class) is carried as a field. -/
structure ShareSt where
  shareType : Nat
  driver_num : Nat
  buffer_num : Nat
deriving DecidableEq, Repr

/-- `Share::new(driver_num, buffer_num, data)`: issues
`syscall4::<SHARE_TYPE>([driver_num, buffer_num, ptr, len])`; if the returned
`r0` is `FAILURE_2_U32` the `r1` register is transmuted to an `ErrorCode` and
returned as `Err`, otherwise the guard is returned. `(ptr, len)` are the
slice's components and `k = (r0, r1)` the kernel's response registers. -/
def Share.new (SHARE_TYPE driver_num buffer_num ptr len : Nat) (k : Nat × Nat) :
    Except ErrorCode ShareSt × List Ev :=
  let ev := Ev.syscall4 SHARE_TYPE driver_num buffer_num ptr len
  if k.1 = return_variant.FAILURE_2_U32 then
    (Except.error ⟨k.2⟩, [ev])
  else
    (Except.ok ⟨SHARE_TYPE, driver_num, buffer_num⟩, [ev])

/-- `<Share as Drop>::drop`: issues
`syscall4::<SHARE_TYPE>([driver_num, buffer_num, 0, 0])` (the zero-slice
revoke); its kernel result is ignored. -/
def Share.drop (s : ShareSt) : List Ev :=
  [Ev.syscall4 s.shareType s.driver_num s.buffer_num 0 0]

/-! ## SubscribeUpcall (async_helpers.rs lines 145-208) -/

/-- `struct SubscribeUpcall<S> { driver_num, subscribe_num }`. -/
structure SubscribeUpcallSt where
  driver_num : Nat
  subscribe_num : Nat
deriving DecidableEq, Repr

/-- `SubscribeUpcall::new(driver_num, subscribe_num, upcall)`: issues
`syscall4::<SUBSCRIBE>([driver_num, subscribe_num, kup_func, kup_data])`
where `kup_func` is the trampoline's address and `kup_data` the upcall
object's address; decodes the result exactly as `Share::new` does. -/
def SubscribeUpcall.new (driver_num subscribe_num kup_func kup_data : Nat)
    (k : Nat × Nat) : Except ErrorCode SubscribeUpcallSt × List Ev :=
  let ev := Ev.syscall4 syscall_class.SUBSCRIBE driver_num subscribe_num kup_func kup_data
  if k.1 = return_variant.FAILURE_2_U32 then
    (Except.error ⟨k.2⟩, [ev])
  else
    (Except.ok ⟨driver_num, subscribe_num⟩, [ev])

/-- `<SubscribeUpcall as Drop>::drop`: issues
`syscall4::<SUBSCRIBE>([driver_num, subscribe_num, 0, 0])` (the null binding,
unsubscribing); its kernel result is ignored. -/
def SubscribeUpcall.drop (s : SubscribeUpcallSt) : List Ev :=
  [Ev.syscall4 syscall_class.SUBSCRIBE s.driver_num s.subscribe_num 0 0]

/-! ## The IPC service protocol (ipc/src/lib.rs) -/

namespace Ipc

/-- `const DRIVER_NUM: u32 = 0x10000;` -/
def DRIVER_NUM : Nat := 0x10000

/-- `command::EXISTS` -/
def cmd_EXISTS : Nat := 0

/-- `command::DISCOVER` -/
def cmd_DISCOVER : Nat := 1

/-- `command::NOTIFY_SERVICE` -/
def cmd_NOTIFY_SERVICE : Nat := 2

/-- `command::NOTIFY_CLIENT` -/
def cmd_NOTIFY_CLIENT : Nat := 3

/-- `allow_ro::SEARCH` -/
def allow_ro_SEARCH : Nat := 0

/-- Modelled from the spec: `CommandReturn::to_result::<u32, ErrorCode>` of
the external platform crate — "result is the kernel's decoded success value
reinterpreted as a ServiceId, or a decoded failure"; a failure with the
documented 2-register shape decodes to the `ErrorCode` in `r1`, a success
carries its value in `r1`. -/
def commandToResultU32 (r0 r1 : Nat) : Except ErrorCode Nat :=
  if r0 = return_variant.FAILURE_2_U32 then Except.error ⟨r1⟩ else Except.ok r1

/-- Modelled from the spec: `CommandReturn::to_result::<(), ErrorCode>` of
the external platform crate — the decoded result of a fire-and-ack command:
a failure with the documented 2-register shape decodes to the `ErrorCode` in
`r1`, otherwise success. -/
def commandToResultUnit (r0 r1 : Nat) : Except ErrorCode Unit :=
  if r0 = return_variant.FAILURE_2_U32 then Except.error ⟨r1⟩ else Except.ok ()

/-- Modelled from the spec: `S::allow_ro::<C, DRIVER_NUM, SEARCH>(allow,
bytes)` of the external platform crate — issues one allow-read-only syscall
lending `(ptr, len)` at `(driver, slot)` and returns the decoded result
("Kernel-reported error ... returned whenever a syscall's failure shape is
the documented one"). -/
def allow_ro_call (driver slot ptr len : Nat) (k : Nat × Nat) :
    Except ErrorCode Unit × List Ev :=
  (if k.1 = return_variant.FAILURE_2_U32 then Except.error ⟨k.2⟩ else Except.ok (),
   [Ev.allowRo driver slot ptr len])

/-- The buffer view handed to an IPC callback by the trampoline: either a
mutable byte slice reconstructed from the kernel-passed `(ptr, len)`, or the
static empty buffer `EMPTY_BUF`. -/
inductive BufView where
  | bytes (ptr len : Nat)
  | empty
deriving DecidableEq, Repr

/-- `kernel_upcall::<S, CB>` (the trampoline registered by `Ipc::register`):
reinterprets `cbptr` back to the callback and calls
`cb.call(target, data)` where `data` is the slice
`from_raw_parts_mut(ptr, len)` when `ptr != 0` and `&mut EMPTY_BUF` when
`ptr == 0`. The callback is modelled as the function the opaque pointer
refers to. -/
def kernel_upcall {α : Type} (cb : Nat → BufView → α) (target len ptr : Nat) : α :=
  if ptr ≠ 0 then cb target (BufView.bytes ptr len) else cb target BufView.empty

/-- `Ipc::register(svc_id, cb)`: issues
`syscall4::<SUBSCRIBE>([DRIVER_NUM, svc_id, upcall, cbptr])` where `upcall`
is `kernel_upcall`'s address and `cbptr` the callback's address, and decodes
the result: `FAILURE_2_U32` gives `Err(transmute(r1))`, anything else gives
`Ok(())`. -/
def register (svc_id upcall cbptr : Nat) (k : Nat × Nat) :
    Except ErrorCode Unit × List Ev :=
  let ev := Ev.syscall4 syscall_class.SUBSCRIBE DRIVER_NUM svc_id upcall cbptr
  if k.1 = return_variant.FAILURE_2_U32 then
    (Except.error ⟨k.2⟩, [ev])
  else
    (Except.ok (), [ev])

/-- `Ipc::notify_service(svc_id)`:
`S::command(DRIVER_NUM, NOTIFY_SERVICE, svc_id, 0).to_result()`. -/
def notify_service (svc_id : Nat) (k : Nat × Nat) :
    Except ErrorCode Unit × List Ev :=
  (commandToResultUnit k.1 k.2, [Ev.command DRIVER_NUM cmd_NOTIFY_SERVICE svc_id 0])

/-- `Ipc::notify_client(svc_id)`:
`S::command(DRIVER_NUM, NOTIFY_CLIENT, svc_id, 0).to_result()`. -/
def notify_client (svc_id : Nat) (k : Nat × Nat) :
    Except ErrorCode Unit × List Ev :=
  (commandToResultUnit k.1 k.2, [Ev.command DRIVER_NUM cmd_NOTIFY_CLIENT svc_id 0])

/-- `Ipc::share(svc_id, buf)`: issues
`syscall4::<ALLOW_RW>([DRIVER_NUM, svc_id, ptr, len])` and decodes the result
exactly as `register` does. -/
def share (svc_id ptr len : Nat) (k : Nat × Nat) :
    Except ErrorCode Unit × List Ev :=
  let ev := Ev.syscall4 syscall_class.ALLOW_RW DRIVER_NUM svc_id ptr len
  if k.1 = return_variant.FAILURE_2_U32 then
    (Except.error ⟨k.2⟩, [ev])
  else
    (Except.ok (), [ev])

/-- `Ipc::discover(pkg_name)`: inside `share::scope`, allows the name's bytes
read-only at `(DRIVER_NUM, SEARCH)`, then (unless the allow failed, in which
case `?` propagates the error) issues the DISCOVER command and decodes it;
the scope releases the grant with a zero allow before returning, regardless
of outcome. `share::scope` and its release are external platform code,
modelled from the spec ("read-only grant is scoped to exactly the duration of
the command: it is established, the discovery command issued, and the grant
released before returning, regardless of outcome"). `(ptr, len)` are the
name's bytes, `kAllow` / `kCmd` the kernel's responses to the two syscalls. -/
def discover (ptr len : Nat) (kAllow kCmd : Nat × Nat) :
    Except ErrorCode Nat × List Ev :=
  let a := allow_ro_call DRIVER_NUM allow_ro_SEARCH ptr len kAllow
  let release := Ev.allowRo DRIVER_NUM allow_ro_SEARCH 0 0
  match a.1 with
  | Except.error e => (Except.error e, a.2 ++ [release])
  | Except.ok _ =>
    (commandToResultU32 kCmd.1 kCmd.2,
     a.2 ++ [Ev.command DRIVER_NUM cmd_DISCOVER 0 0] ++ [release])

end Ipc

/-! ## Theorems -/

/-- C1 (counterexample): the claim "a failure shape other than the documented
2-register failure encoding is treated as a fatal protocol violation
(abort/unreachable) and is never silently coerced into a success" is false on
the code: a kernel response whose `r0` is any of the other failure shapes
(`FAILURE` = 0, `FAILURE_U32` = 1, `FAILURE_U64` = 3) is decoded by
`Share::new`, `SubscribeUpcall::new`, `Ipc::register` and `Ipc::share` as a
success — there is no abort path. -/
theorem decode_nonstandard_failure_coerced_to_success :
    (Share.new syscall_class.ALLOW_RW 1 2 100 8 (return_variant.FAILURE_U32, 9)).1
      = Except.ok ⟨syscall_class.ALLOW_RW, 1, 2⟩
  ∧ (SubscribeUpcall.new 1 2 300 400 (return_variant.FAILURE, 9)).1 = Except.ok ⟨1, 2⟩
  ∧ (Ipc.register 5 300 400 (return_variant.FAILURE_U64, 9)).1 = Except.ok ()
  ∧ (Ipc.share 5 100 8 (return_variant.FAILURE_U32, 9)).1 = Except.ok () :=
  ⟨rfl, rfl, rfl, rfl⟩

/-- C1 (amended): the raw results decoded by `register`, `share`,
`Share::new` and `SubscribeUpcall::new` treat exactly the documented
2-register failure shape as a failure, decoding the `ErrorCode` from the
second register; every other return shape — including the other documented
failure shapes — is decoded as a success, and no fatal abort path exists. -/
theorem decode_two_register_failure_only (stype d b p l svc up cbp r0 r1 : Nat) :
    (Share.new stype d b p l (r0, r1)).1
      = (if r0 = return_variant.FAILURE_2_U32 then Except.error ⟨r1⟩
         else Except.ok ⟨stype, d, b⟩)
  ∧ (SubscribeUpcall.new d b up cbp (r0, r1)).1
      = (if r0 = return_variant.FAILURE_2_U32 then Except.error ⟨r1⟩
         else Except.ok ⟨d, b⟩)
  ∧ (Ipc.register svc up cbp (r0, r1)).1
      = (if r0 = return_variant.FAILURE_2_U32 then Except.error ⟨r1⟩ else Except.ok ())
  ∧ (Ipc.share svc p l (r0, r1)).1
      = (if r0 = return_variant.FAILURE_2_U32 then Except.error ⟨r1⟩ else Except.ok ()) := by
  by_cases h : r0 = return_variant.FAILURE_2_U32 <;>
    simp [Share.new, SubscribeUpcall.new, Ipc.register, Ipc.share, h]

/-- C5: the first poll of a `Yield` created by `Yield::now` returns `Pending`
and issues no syscall (its event trace is empty), and the second poll returns
`Ready`. -/
theorem yield_first_pending_second_ready :
    (Yield.poll Yield.now).1 = PollR.Pending
  ∧ (Yield.poll Yield.now).2.2 = []
  ∧ (Yield.poll (Yield.poll Yield.now).2.1).1 = PollR.Ready
  ∧ (Yield.poll (Yield.poll Yield.now).2.1).2.2 = [] := by
  decide

/-- C9: for every invocation of the IPC trampoline `kernel_upcall`, the
callback reconstructed from the opaque pointer is invoked with the peer id
(`target`) and a mutable byte view built from the kernel-passed pointer and
length, or with the empty view when the kernel-passed pointer is null. -/
theorem kernel_upcall_delivers_peer_and_view (α : Type) (cb : Nat → Ipc.BufView → α)
    (target len ptr : Nat) :
    Ipc.kernel_upcall cb target len ptr
      = cb target (if ptr = 0 then Ipc.BufView.empty else Ipc.BufView.bytes ptr len)
  ∧ Ipc.kernel_upcall cb target len 0 = cb target Ipc.BufView.empty := by
  by_cases h : ptr = 0 <;> simp [Ipc.kernel_upcall, h]

/-- C10: an Executor over zero tasks returns immediately from `run` (for any
fuel, including 0) with an empty event trace: no task is polled and not a
single non-blocking yield is issued, because `all_done = 0` already equals
`TASKS = 0` at the first loop test. -/
theorem executor_run_zero_tasks (τ : Type) (pollT : τ → PollR × τ × List Ev)
    (fuel : Nat) :
    Executor.run pollT fuel (Executor.new ([] : List τ)) = some ([], []) := by
  cases fuel <;> simp [Executor.run, Executor.new, runLoop]

/-- C7: `Ipc::discover` establishes a read-only grant of the name's bytes at
`(DRIVER_NUM, SEARCH)`, then issues the discover command, and the grant is
released (zero allow to the same slot) before returning, regardless of
outcome; the result is the kernel's decoded success value (the ServiceId) or
the decoded `ErrorCode`. In particular a kernel success with value 7 yields
`Ok(7)` and a 2-register failure with code `NODEVICE` yields
`Err(NODEVICE)`. -/
theorem discover_scoped_grant_and_result (ptr len ar0 ar1 cr0 cr1 : Nat) :
    (ar0 ≠ return_variant.FAILURE_2_U32 →
      Ipc.discover ptr len (ar0, ar1) (cr0, cr1)
        = (Ipc.commandToResultU32 cr0 cr1,
           [Ev.allowRo Ipc.DRIVER_NUM Ipc.allow_ro_SEARCH ptr len,
            Ev.command Ipc.DRIVER_NUM Ipc.cmd_DISCOVER 0 0,
            Ev.allowRo Ipc.DRIVER_NUM Ipc.allow_ro_SEARCH 0 0]))
  ∧ (ar0 = return_variant.FAILURE_2_U32 →
      Ipc.discover ptr len (ar0, ar1) (cr0, cr1)
        = (Except.error ⟨ar1⟩,
           [Ev.allowRo Ipc.DRIVER_NUM Ipc.allow_ro_SEARCH ptr len,
            Ev.allowRo Ipc.DRIVER_NUM Ipc.allow_ro_SEARCH 0 0]))
  ∧ (Ipc.discover ptr len (return_variant.SUCCESS, 0)
        (return_variant.SUCCESS_U32, 7)).1 = Except.ok 7
  ∧ (Ipc.discover ptr len (return_variant.SUCCESS, 0)
        (return_variant.FAILURE_2_U32, ErrorCode.NODEVICE.code)).1
      = Except.error ErrorCode.NODEVICE := by
  refine ⟨fun h => ?_, fun h => ?_, rfl, rfl⟩ <;>
    simp [Ipc.discover, Ipc.allow_ro_call, h]

/-- C7 witness: `discover` at a concrete name buffer and concrete kernel
responses (allow succeeds with `SUCCESS`, discover succeeds with value 7)
issues exactly allow, command, release — in that order — and returns
`Ok(7)`. -/
theorem discover_scoped_grant_and_result_witness :
    Ipc.discover 100 5 (return_variant.SUCCESS, 0) (return_variant.SUCCESS_U32, 7)
      = (Except.ok 7,
         [Ev.allowRo Ipc.DRIVER_NUM Ipc.allow_ro_SEARCH 100 5,
          Ev.command Ipc.DRIVER_NUM Ipc.cmd_DISCOVER 0 0,
          Ev.allowRo Ipc.DRIVER_NUM Ipc.allow_ro_SEARCH 0 0]) :=
  (discover_scoped_grant_and_result 100 5 return_variant.SUCCESS 0
      return_variant.SUCCESS_U32 7).1 (by decide)

/-- C8: `notify_service`, `notify_client` and `share` each issue exactly one
syscall (a command for the notifies, an allow-read-write for `share`)
addressed to the service id, and return the decoded kernel result unchanged;
in particular a kernel failing a `share` call with `SIZE` yields exactly
`Err(SIZE)`. -/
theorem notify_share_single_syscall (svc ptr len r0 r1 : Nat) :
    Ipc.notify_service svc (r0, r1)
      = (Ipc.commandToResultUnit r0 r1,
         [Ev.command Ipc.DRIVER_NUM Ipc.cmd_NOTIFY_SERVICE svc 0])
  ∧ Ipc.notify_client svc (r0, r1)
      = (Ipc.commandToResultUnit r0 r1,
         [Ev.command Ipc.DRIVER_NUM Ipc.cmd_NOTIFY_CLIENT svc 0])
  ∧ (Ipc.share svc ptr len (r0, r1)).2
      = [Ev.syscall4 syscall_class.ALLOW_RW Ipc.DRIVER_NUM svc ptr len]
  ∧ (Ipc.share svc ptr len (r0, r1)).1
      = (if r0 = return_variant.FAILURE_2_U32 then Except.error ⟨r1⟩ else Except.ok ())
  ∧ (Ipc.share svc ptr len (return_variant.FAILURE_2_U32, ErrorCode.SIZE.code)).1
      = Except.error ErrorCode.SIZE := by
  by_cases h : r0 = return_variant.FAILURE_2_U32 <;>
    simp [Ipc.notify_service, Ipc.notify_client, Ipc.share, h]

/-- C3: for every successfully constructed `Share` guard, dropping it issues
exactly one revoke — the same allow syscall class, zero pointer and zero
length, to the same `(driver, slot)` — so construct-then-drop issues the
revoke exactly once; when `Share::new` fails, the `ErrorCode` from `r1` is
returned, no guard value is produced, and no revoke is issued. `p ≠ 0`
because a Rust slice's data pointer is never null. -/
theorem share_guard_single_revoke (stype d b p l r0 r1 : Nat) (hp : p ≠ 0) :
    (∀ g tr, Share.new stype d b p l (r0, r1) = (Except.ok g, tr) →
        g.shareType = stype ∧ g.driver_num = d ∧ g.buffer_num = b
      ∧ Share.drop g = [Ev.syscall4 stype d b 0 0]
      ∧ (tr ++ Share.drop g).count (Ev.syscall4 stype d b 0 0) = 1)
  ∧ (∀ e tr, Share.new stype d b p l (r0, r1) = (Except.error e, tr) →
        e = ⟨r1⟩ ∧ tr.count (Ev.syscall4 stype d b 0 0) = 0) := by
  constructor
  · intro g tr h
    by_cases hc : r0 = return_variant.FAILURE_2_U32 <;>
      simp [Share.new, hc] at h
    obtain ⟨hg, htr⟩ := h
    subst hg
    subst htr
    refine ⟨rfl, rfl, rfl, rfl, ?_⟩
    simp [Share.drop, List.count_cons, List.count_singleton, hp, Ne.symm hp]
  · intro e tr h
    by_cases hc : r0 = return_variant.FAILURE_2_U32 <;>
      simp [Share.new, hc] at h
    obtain ⟨hg, htr⟩ := h
    subst hg
    subst htr
    refine ⟨rfl, ?_⟩
    simp [List.count_singleton, hp, Ne.symm hp]

/-- C3 witness: a concrete successful construction (kernel answers with plain
`SUCCESS`) at `(class 3, driver 1, buffer 2)` with buffer `(ptr 100, len 8)`
yields a guard whose drop issues exactly the zero-pointer zero-length revoke
to the same class, driver and slot, and the combined new-then-drop trace
contains that revoke exactly once. -/
theorem share_guard_single_revoke_witness :
    Share.drop ⟨3, 1, 2⟩ = [Ev.syscall4 3 1 2 0 0]
  ∧ ([Ev.syscall4 3 1 2 100 8] ++ Share.drop ⟨3, 1, 2⟩).count (Ev.syscall4 3 1 2 0 0) = 1 :=
  ⟨((share_guard_single_revoke 3 1 2 100 8 return_variant.SUCCESS 0 (by decide)).1
      ⟨3, 1, 2⟩ [Ev.syscall4 3 1 2 100 8] rfl).2.2.2.1,
   ((share_guard_single_revoke 3 1 2 100 8 return_variant.SUCCESS 0 (by decide)).1
      ⟨3, 1, 2⟩ [Ev.syscall4 3 1 2 100 8] rfl).2.2.2.2⟩

/-- C4: for every successfully constructed `SubscribeUpcall`, dropping it
issues exactly one null-binding unsubscribe — a subscribe syscall with null
trampoline and null data pointers — to the same `(driver, slot)`, so
construct-then-drop issues it exactly once. `up ≠ 0` because the trampoline's
function address is never null. -/
theorem subscribe_single_unsubscribe (d s up cbp r0 r1 : Nat) (hup : up ≠ 0) :
    ∀ g tr, SubscribeUpcall.new d s up cbp (r0, r1) = (Except.ok g, tr) →
        g.driver_num = d ∧ g.subscribe_num = s
      ∧ SubscribeUpcall.drop g = [Ev.syscall4 syscall_class.SUBSCRIBE d s 0 0]
      ∧ (tr ++ SubscribeUpcall.drop g).count
          (Ev.syscall4 syscall_class.SUBSCRIBE d s 0 0) = 1 := by
  intro g tr h
  by_cases hc : r0 = return_variant.FAILURE_2_U32 <;>
    simp [SubscribeUpcall.new, hc] at h
  obtain ⟨hg, htr⟩ := h
  subst hg
  subst htr
  refine ⟨rfl, rfl, rfl, ?_⟩
  simp [SubscribeUpcall.drop, List.count_cons, List.count_singleton, hup, Ne.symm hup]

/-- C4 witness: a concrete successful subscription (kernel answers with
`SUCCESS_2_U32`) at `(driver 1, slot 2)` with trampoline address 300 and data
address 400 yields a subscription whose drop issues exactly the null-binding
unsubscribe to the same driver and slot, exactly once across
new-then-drop. -/
theorem subscribe_single_unsubscribe_witness :
    SubscribeUpcall.drop ⟨1, 2⟩ = [Ev.syscall4 syscall_class.SUBSCRIBE 1 2 0 0]
  ∧ ([Ev.syscall4 syscall_class.SUBSCRIBE 1 2 300 400] ++ SubscribeUpcall.drop ⟨1, 2⟩).count
      (Ev.syscall4 syscall_class.SUBSCRIBE 1 2 0 0) = 1 :=
  ⟨(subscribe_single_unsubscribe 1 2 300 400 return_variant.SUCCESS_2_U32 0 (by decide)
      ⟨1, 2⟩ [Ev.syscall4 syscall_class.SUBSCRIBE 1 2 300 400] rfl).2.2.1,
   (subscribe_single_unsubscribe 1 2 300 400 return_variant.SUCCESS_2_U32 0 (by decide)
      ⟨1, 2⟩ [Ev.syscall4 syscall_class.SUBSCRIBE 1 2 300 400] rfl).2.2.2⟩

theorem sweepA_length {τ : Type} (pollT : τ → PollR × τ × List Ev) :
    ∀ (ts : List (τ × Bool)) (i : Nat), (sweepA pollT i ts).1.length = ts.length := by
  intro ts
  induction ts with
  | nil => intro i; simp [sweepA]
  | cons p rest ih =>
    intro i
    obtain ⟨t, d⟩ := p
    cases d <;> simp [sweepA]
    · cases h : (pollT t).1 <;> simp [h, ih]
    · exact ih (i + 1)

theorem sweepA_count {τ : Type} (pollT : τ → PollR × τ × List Ev) :
    ∀ (ts : List (τ × Bool)) (i : Nat),
      (sweepA pollT i ts).2.1 = countDone (sweepA pollT i ts).1 := by
  intro ts
  induction ts with
  | nil => intro i; simp [sweepA, countDone]
  | cons p rest ih =>
    intro i
    obtain ⟨t, d⟩ := p
    cases d <;> simp [sweepA]
    · cases h : (pollT t).1
      · simp [h, countDone, ih (i + 1)]
        omega
      · simp [h, countDone, ih (i + 1)]

    · simp [countDone, ih (i + 1)]
      omega

theorem countDone_le {τ : Type} : ∀ ts : List (τ × Bool), countDone ts ≤ ts.length := by
  intro ts
  induction ts with
  | nil => simp [countDone]
  | cons p rest ih =>
    obtain ⟨t, d⟩ := p
    cases d <;> simp [countDone] <;> omega

theorem countDone_eq_length {τ : Type} :
    ∀ ts : List (τ × Bool), countDone ts = ts.length → ∀ p ∈ ts, p.2 = true := by
  intro ts
  induction ts with
  | nil => intro _ p hp; simp at hp
  | cons q rest ih =>
    obtain ⟨t, d⟩ := q
    intro h p hp
    have hle := countDone_le rest
    cases d with
    | false =>
      simp [countDone] at h
      omega
    | true =>
      simp [countDone] at h
      rcases List.mem_cons.mp hp with h1 | h2
      · rw [h1]
      · exact ih (by omega) p h2

theorem runLoop_all_done {τ : Type} (pollT : τ → PollR × τ × List Ev) :
    ∀ (fuel a : Nat) (ts ts' : List (τ × Bool)) (tr : List Ev),
      (a = 0 ∨ a = countDone ts) →
      runLoop pollT fuel a ts = some (ts', tr) →
      ∀ p ∈ ts', p.2 = true := by
  intro fuel
  induction fuel with
  | zero =>
    intro a ts ts' tr ha h
    rw [runLoop] at h
    by_cases he : a = ts.length
    · simp [he] at h
      obtain ⟨h1, _⟩ := h
      subst h1
      rcases ha with ha | ha
      · have : ts.length = 0 := by omega
        intro p hp
        rw [List.length_eq_zero.mp this] at hp
        simp at hp
      · exact countDone_eq_length ts (by omega)
    · simp [he] at h
  | succ fuel ih =>
    intro a ts ts' tr ha h
    rw [runLoop] at h
    by_cases he : a = ts.length
    · simp [he] at h
      obtain ⟨h1, _⟩ := h
      subst h1
      rcases ha with ha | ha
      · have : ts.length = 0 := by omega
        intro p hp
        rw [List.length_eq_zero.mp this] at hp
        simp at hp
      · exact countDone_eq_length ts (by omega)
    · simp [he] at h
      rcases hrec : runLoop pollT fuel (sweepA pollT 0 ts).2.1 (sweepA pollT 0 ts).1 with _ | x
      · rw [hrec] at h; simp at h
      · rw [hrec] at h
        simp at h
        obtain ⟨h1, _⟩ := h
        subst h1
        exact ih _ _ _ _ (Or.inr (sweepA_count pollT ts 0)) hrec

/-- C2: `Executor::run` returns only once every task has reported completion
(all `done` flags are set in the final state, a flag being set only when that
task's poll returned `Ready`); with 2 tasks each consisting of exactly one
`Yield` checkpoint, `run` performs exactly 2 sweeps and issues exactly 2
non-blocking yields before returning — the full event trace is two sweeps of
`polled 0, polled 1` each followed by one `yieldNoWait`, and the trace
contains exactly 2 `yieldNoWait` events. -/
theorem executor_run_completion_two_sweeps :
    (∀ (τ : Type) (pollT : τ → PollR × τ × List Ev) (fuel : Nat)
        (ts ts' : List (τ × Bool)) (tr : List Ev),
        Executor.run pollT fuel ts = some (ts', tr) → ∀ p ∈ ts', p.2 = true)
  ∧ Executor.run Yield.poll 2 (Executor.new [Yield.now, Yield.now])
      = some ([(⟨true⟩, true), (⟨true⟩, true)],
          [Ev.polled 0, Ev.polled 1, Ev.yieldNoWait,
           Ev.polled 0, Ev.polled 1, Ev.yieldNoWait])
  ∧ List.count Ev.yieldNoWait
      [Ev.polled 0, Ev.polled 1, Ev.yieldNoWait,
       Ev.polled 0, Ev.polled 1, Ev.yieldNoWait] = 2 := by
  refine ⟨?_, rfl, by decide⟩
  intro τ pollT fuel ts ts' tr h
  exact runLoop_all_done pollT fuel 0 ts ts' tr (Or.inl rfl) h

theorem pendingIdx_ge {τ : Type} :
    ∀ (ts : List (τ × Bool)) (i j : Nat), j ∈ pendingIdx i ts → i ≤ j := by
  intro ts
  induction ts with
  | nil => intro i j h; simp [pendingIdx] at h
  | cons p rest ih =>
    intro i j h
    obtain ⟨t, d⟩ := p
    cases d <;> simp [pendingIdx] at h
    · rcases h with h | h
      · omega
      · have := ih (i + 1) j h; omega
    · have := ih (i + 1) j h; omega

theorem pendingIdx_sorted {τ : Type} :
    ∀ (ts : List (τ × Bool)) (i : Nat), List.Sorted (· < ·) (pendingIdx i ts) := by
  intro ts
  induction ts with
  | nil => intro i; simp [pendingIdx]
  | cons p rest ih =>
    intro i
    obtain ⟨t, d⟩ := p
    cases d <;> simp [pendingIdx]
    · refine ⟨?_, ih (i + 1)⟩
      intro b hb
      have := pendingIdx_ge rest (i + 1) b hb
      omega
    · exact ih (i + 1)

theorem pendingIdx_mem {τ : Type} :
    ∀ (ts : List (τ × Bool)) (i k : Nat) (t : τ) (d : Bool),
      ts[k]? = some (t, d) → ((i + k) ∈ pendingIdx i ts ↔ d = false) := by
  intro ts
  induction ts with
  | nil => intro i k t d h; simp at h
  | cons p rest ih =>
    intro i k t d h
    obtain ⟨t0, d0⟩ := p
    cases k with
    | zero =>
      simp at h
      obtain ⟨ht, hd⟩ := h
      subst hd
      cases d0 <;> simp [pendingIdx]
      intro hmem
      have := pendingIdx_ge rest (i + 1) i hmem
      omega
    | succ k =>
      simp only [List.getElem?_cons_succ] at h
      have hidx : i + (k + 1) = (i + 1) + k := by omega
      rw [hidx]
      cases d0
      · rw [show pendingIdx i ((t0, false) :: rest) = i :: pendingIdx (i + 1) rest from by
          simp [pendingIdx]]
        rw [List.mem_cons]
        constructor
        · rintro (h1 | h1)
          · exfalso
            omega
          · exact (ih (i + 1) k t d h).mp h1
        · intro hd
          exact Or.inr ((ih (i + 1) k t d h).mpr hd)
      · rw [show pendingIdx i ((t0, true) :: rest) = pendingIdx (i + 1) rest from by
          simp [pendingIdx]]
        exact ih (i + 1) k t d h

theorem sweepA_polled {τ : Type} (pollT : τ → PollR × τ × List Ev)
    (hpoll : ∀ t, polledOf (pollT t).2.2 = []) :
    ∀ (ts : List (τ × Bool)) (i : Nat),
      polledOf (sweepA pollT i ts).2.2 = pendingIdx i ts := by
  intro ts
  induction ts with
  | nil => intro i; simp [sweepA, pendingIdx, polledOf]
  | cons p rest ih =>
    intro i
    obtain ⟨t, d⟩ := p
    cases d <;> simp [sweepA, pendingIdx]
    · cases h : (pollT t).1 <;>
        simp [h, polledOf, List.filterMap_append] <;>
        rw [← polledOf, ← polledOf, hpoll t, ih (i + 1)] <;> simp
    · exact ih (i + 1)

theorem sweepA_done_preserved {τ : Type} (pollT : τ → PollR × τ × List Ev) :
    ∀ (ts : List (τ × Bool)) (i k : Nat) (t : τ),
      ts[k]? = some (t, true) → (sweepA pollT i ts).1[k]? = some (t, true) := by
  intro ts
  induction ts with
  | nil => intro i k t h; simp at h
  | cons p rest ih =>
    intro i k t h
    obtain ⟨t0, d0⟩ := p
    cases k with
    | zero =>
      simp at h
      obtain ⟨ht, hd⟩ := h
      subst hd
      simp [sweepA, ht]
    | succ k =>
      simp only [List.getElem?_cons_succ] at h
      cases d0 <;> simp [sweepA]
      · cases hp : (pollT t0).1 <;> simp [hp] <;> exact ih (i + 1) k t h
      · exact ih (i + 1) k t h

theorem runLoop_exit {τ : Type} (pollT : τ → PollR × τ × List Ev)
    (fuel a : Nat) (ts : List (τ × Bool)) (h : a = ts.length) :
    runLoop pollT fuel a ts = some (ts, []) := by
  rw [runLoop.eq_def]
  simp [h]

theorem runLoop_step {τ : Type} (pollT : τ → PollR × τ × List Ev)
    (fuel a : Nat) (ts : List (τ × Bool)) (h : a ≠ ts.length) :
    runLoop pollT (fuel + 1) a ts
      = match runLoop pollT fuel (sweepA pollT 0 ts).2.1 (sweepA pollT 0 ts).1 with
        | none => none
        | some x => some (x.1, (sweepA pollT 0 ts).2.2 ++ Ev.yieldNoWait :: x.2) := by
  rw [runLoop.eq_def]
  simp [h]
  rcases runLoop pollT fuel (sweepA pollT 0 ts).2.1 (sweepA pollT 0 ts).1 with _ | ⟨ts2, tr2⟩ <;> rfl

/-- C2 witness: the completion property of `Executor::run` applied to the
concrete 2-task run of two `Yield` checkpoints, whose final state is read off
at its first task. -/
theorem executor_run_completion_two_sweeps_witness :
    ((Yield.mk true, true) : Yield × Bool).2 = true :=
  (executor_run_completion_two_sweeps.1 Yield Yield.poll 2
      (Executor.new [Yield.now, Yield.now])
      [(Yield.mk true, true), (Yield.mk true, true)]
      [Ev.polled 0, Ev.polled 1, Ev.yieldNoWait, Ev.polled 0, Ev.polled 1, Ev.yieldNoWait]
      rfl)
    (Yield.mk true, true) (by simp)

/-- C6: within `Executor::run`, tasks are swept in fixed index order — the
`polled` events of one sweep are exactly the indices of the not-yet-finished
tasks, in strictly increasing order, each exactly once (assuming the tasks'
own polls record no `polled` instrumentation, which holds for real tasks);
a task whose `done` flag is set is never polled again and its state is
preserved by the sweep; and the run loop issues exactly one non-blocking
yield after each full sweep regardless of how many tasks progressed (and no
yield at all when it exits). -/
theorem executor_fixed_order_one_yield_per_sweep (τ : Type)
    (pollT : τ → PollR × τ × List Ev)
    (hpoll : ∀ t, polledOf (pollT t).2.2 = [])
    (i fuel a : Nat) (ts : List (τ × Bool)) :
    polledOf (sweepA pollT i ts).2.2 = pendingIdx i ts
  ∧ List.Sorted (· < ·) (pendingIdx i ts)
  ∧ (∀ (k : Nat) (t : τ) (d : Bool),
      ts[k]? = some (t, d) → ((i + k) ∈ pendingIdx i ts ↔ d = false))
  ∧ (∀ (k : Nat) (t : τ),
      ts[k]? = some (t, true) → (sweepA pollT i ts).1[k]? = some (t, true))
  ∧ (a = ts.length → runLoop pollT fuel a ts = some (ts, []))
  ∧ (a ≠ ts.length →
      runLoop pollT (fuel + 1) a ts
        = match runLoop pollT fuel (sweepA pollT 0 ts).2.1 (sweepA pollT 0 ts).1 with
          | none => none
          | some x => some (x.1, (sweepA pollT 0 ts).2.2 ++ Ev.yieldNoWait :: x.2)) :=
  ⟨sweepA_polled pollT hpoll ts i, pendingIdx_sorted ts i,
   fun k t d h => pendingIdx_mem ts i k t d h,
   fun k t h => sweepA_done_preserved pollT ts i k t h,
   fun h => runLoop_exit pollT fuel a ts h,
   fun h => runLoop_step pollT fuel a ts h⟩

/-- C6 witness: the sweep-order property evaluated on a concrete three-task
state (pending, finished, pending): the sweep's polled indices are exactly
`pendingIdx 0` of that state, i.e. `[0, 2]`. -/
theorem executor_fixed_order_one_yield_per_sweep_witness :
    polledOf (sweepA Yield.poll 0
        [(Yield.now, false), (Yield.mk true, true), (Yield.now, false)]).2.2
      = pendingIdx 0 [(Yield.now, false), (Yield.mk true, true), (Yield.now, false)]
  ∧ pendingIdx 0 [((Yield.now : Yield), false), (Yield.mk true, true), (Yield.now, false)]
      = [0, 2] :=
  ⟨(executor_fixed_order_one_yield_per_sweep Yield Yield.poll
      (fun t => match t with | ⟨false⟩ => rfl | ⟨true⟩ => rfl)
      0 1 0 [(Yield.now, false), (Yield.mk true, true), (Yield.now, false)]).1,
   by decide⟩

end Tock
